import Mathlib

/-!
Shallow embedding of the metrics ingestion and derived-statistics engine of
the `exporter` dashboard (Svelte component, `fetchMetrics` and the polling
helpers).  JavaScript numbers are modelled as `Option ℚ`: `some q` is a
finite value `q`, `none` stands for a non-finite result (`NaN`, `±Infinity`).
All arithmetic helpers mirror the IEEE behaviour that matters on the code's
reachable paths: non-finite operands propagate, and a division by zero is
non-finite.
-/

/-- A JavaScript number: a finite rational or a non-finite value (`NaN`/`±∞`). -/
abbrev JSNum := Option ℚ

def jsAdd : JSNum → JSNum → JSNum
  | some a, some b => some (a + b)
  | _, _ => none

def jsSub : JSNum → JSNum → JSNum
  | some a, some b => some (a - b)
  | _, _ => none

def jsMul : JSNum → JSNum → JSNum
  | some a, some b => some (a * b)
  | _, _ => none

/-- JS division; a zero divisor gives a non-finite result (`NaN` or `±∞`). -/
def jsDiv : JSNum → JSNum → JSNum
  | some a, some b => if b = 0 then none else some (a / b)
  | _, _ => none

/-- `Math.max(0, x)`; `Math.max` propagates `NaN`. -/
def jsMax0 : JSNum → JSNum
  | some a => some (max 0 a)
  | none => none

/-- The JS comparison `x > 0` (false on `NaN`). -/
def jsGtZero : JSNum → Bool
  | some a => decide (0 < a)
  | none => false

/-! ### String utilities (JS `includes`, `split`, `pop`, regex fragments) -/

def listStartsWith : List Char → List Char → Bool
  | _, [] => true
  | [], _ :: _ => false
  | a :: as, b :: bs => a == b && listStartsWith as bs

/-- Does `pat` occur as a contiguous substring of `s` (JS `String.includes`)? -/
def listHasSub : List Char → List Char → Bool
  | [], pat => pat.isEmpty
  | s@(_ :: rest), pat => listStartsWith s pat || listHasSub rest pat

def jsIncludes (line pat : String) : Bool :=
  listHasSub line.toList pat.toList

/-- JS `String.split(sep)` for a one-character separator: every occurrence
separates, adjacent separators yield empty groups, and `"".split(sep) = [""]`. -/
def splitChar (sep : Char) : List Char → List (List Char)
  | [] => [[]]
  | c :: cs =>
      match splitChar sep cs with
      | g :: gs => if c == sep then [] :: g :: gs else (c :: g) :: gs
      | [] => [[]]

def jsSplit (sep : Char) (s : String) : List String :=
  (splitChar sep s.toList).map List.asString

/-- `line.split(' ').pop()` (JS `split` on a single space; `pop` of `[""]` is `""`). -/
def jsLastToken (line : String) : String :=
  (jsSplit ' ' line).getLastD ""

/-- `line.split(' ').pop() || '0'`: only the empty string is falsy here. -/
def jsNumField (line : String) : String :=
  let s := jsLastToken line
  if s = "" then "0" else s

def digitVal (c : Char) : ℕ := c.toNat - 48

def natOfDigits (ds : List Char) : ℚ :=
  ds.foldl (fun acc c => acc * 10 + (digitVal c : ℚ)) 0

def fracOfDigits (ds : List Char) : ℚ :=
  ds.foldr (fun c acc => ((digitVal c : ℚ) + acc) / 10) 0

def isWs (c : Char) : Bool := c == ' ' || c == '\t' || c == '\n' || c == '\r'

/-- Parse a decimal literal `digits [. digits]` as a prefix of `cs`; returns the
value and the unconsumed rest, or `none` when no digit is present.  Models the
`StrDecimalLiteral` core consumed by `parseFloat`/`Number` (exponents and the
`Infinity` literal do not occur in the exposition input and are not modelled). -/
def parseDec (cs : List Char) : Option (ℚ × List Char) :=
  let ip := cs.takeWhile Char.isDigit
  let r1 := cs.dropWhile Char.isDigit
  match r1 with
  | '.' :: r2 =>
      let fp := r2.takeWhile Char.isDigit
      let r3 := r2.dropWhile Char.isDigit
      if ip.isEmpty && fp.isEmpty then none
      else some (natOfDigits ip + fracOfDigits fp, r3)
  | _ => if ip.isEmpty then none else some (natOfDigits ip, r1)

/-- JS `parseFloat`: skip leading whitespace, optional sign, then the longest
numeric prefix; `NaN` (here `none`) when no digit starts the field. -/
def jsParseFloat (s : String) : JSNum :=
  match s.toList.dropWhile isWs with
  | '-' :: rest => (parseDec rest).map (fun p => -p.1)
  | '+' :: rest => (parseDec rest).map (·.1)
  | cs => (parseDec cs).map (·.1)

/-- JS `Number(s)` on a plain decimal string: trimmed empty string is `0`,
otherwise the whole trimmed string must be a signed decimal literal. -/
def jsNumber (s : String) : JSNum :=
  let cs := (s.toList.dropWhile isWs).reverse.dropWhile isWs |>.reverse
  if cs.isEmpty then some 0
  else
    let core : List Char → JSNum := fun t =>
      match parseDec t with
      | some (v, []) => some v
      | _ => none
    match cs with
    | '-' :: rest => (core rest).map (fun q => -q)
    | '+' :: rest => core rest
    | _ => core cs

/-- JS `parseInt` (radix 10 inputs): leading whitespace, optional sign, then
the longest run of digits; `NaN` when there is none. -/
def jsParseInt (s : String) : Option ℤ :=
  let go : List Char → Option ℤ := fun cs =>
    let ds := cs.takeWhile Char.isDigit
    if ds.isEmpty then none
    else some (ds.foldl (fun acc c => acc * 10 + (digitVal c : ℤ)) 0)
  match s.toList.dropWhile isWs with
  | '-' :: rest => (go rest).map (fun n => -n)
  | '+' :: rest => go rest
  | cs => go cs

/-- The numeric value every recognized branch reads:
`parseFloat(line.split(' ').pop() || '0')`. -/
def lineVal (line : String) : JSNum :=
  jsParseFloat (jsNumField line)

/-- Take the characters strictly before the next `'"'`, and the rest after it. -/
def takeToQuote : List Char → Option (List Char × List Char)
  | [] => none
  | c :: cs =>
      if c == '"' then some ([], cs)
      else (takeToQuote cs).map (fun p => (c :: p.1, p.2))

/-- Try the regex `core="([^"]+)",mode="([^"]+)"` anchored at the head of `s`. -/
def matchCoreModeHere (s : List Char) : Option (String × String) :=
  if listStartsWith s "core=\"".toList then
    match takeToQuote (s.drop 6) with
    | some (c, rest) =>
        if c.isEmpty then none
        else if listStartsWith rest ",mode=\"".toList then
          match takeToQuote (rest.drop 7) with
          | some (m, _) => if m.isEmpty then none else some (c.asString, m.asString)
          | none => none
        else none
    | none => none
  else none

/-- `line.match(/core="([^"]+)",mode="([^"]+)"/)`: first position where the
pattern matches. -/
def findCoreMode : List Char → Option (String × String)
  | [] => none
  | s@(_ :: rest) =>
      match matchCoreModeHere s with
      | some r => some r
      | none => findCoreMode rest

/-! ### Per-core time data (the `CoreTimeData` object of `fetchMetrics`) -/

structure CoreTimeData where
  idle : JSNum
  user : JSNum
  privileged : JSNum
  interrupt : JSNum
  dpc : JSNum
  total : JSNum
  lastTotal : JSNum
  lastIdle : JSNum
  deriving DecidableEq

def initCoreTimeData : CoreTimeData :=
  { idle := some 0, user := some 0, privileged := some 0, interrupt := some 0
    dpc := some 0, total := some 0, lastTotal := some 0, lastIdle := some 0 }

/-- `coreData[mode] = value` on the declared fields; an unknown mode string
creates a phantom property and changes none of them. -/
def setMode (d : CoreTimeData) (mode : String) (v : JSNum) : CoreTimeData :=
  if mode = "idle" then { d with idle := v }
  else if mode = "user" then { d with user := v }
  else if mode = "privileged" then { d with privileged := v }
  else if mode = "interrupt" then { d with interrupt := v }
  else if mode = "dpc" then { d with dpc := v }
  else if mode = "lastTotal" then { d with lastTotal := v }
  else if mode = "lastIdle" then { d with lastIdle := v }
  else d

/-- The mutation a `windows_cpu_time_total` line applies to its core's record:
modes other than `total` store the value (idle also saves `lastIdle`), then
`total` is recomputed from the five components and the old total is saved. -/
def applyCpuTime (d : CoreTimeData) (mode : String) (v : JSNum) : CoreTimeData :=
  if mode = "total" then d
  else
    let d1 := if mode = "idle" then { d with lastIdle := d.idle, idle := v } else d
    let d2 := setMode d1 mode v
    let nt := jsAdd (jsAdd (jsAdd (jsAdd d2.idle d2.user) d2.privileged) d2.interrupt) d2.dpc
    { d2 with lastTotal := d2.total, total := nt }

/-- `coreTimes : Map<string, CoreTimeData>` in insertion order. -/
abbrev CoreMap := List (String × CoreTimeData)

/-- `if (!coreTimes.has(core)) coreTimes.set(core, fresh); mutate get(core)`:
update in place, creating a zero-initialized entry at the end when absent. -/
def updAssoc (m : CoreMap) (k : String) (f : CoreTimeData → CoreTimeData) : CoreMap :=
  match m with
  | [] => [(k, f initCoreTimeData)]
  | (k', d) :: rest => if k' = k then (k', f d) :: rest else (k', d) :: updAssoc rest k f

/-! ### Derived per-core usage and ordering -/

structure CoreUsage where
  core : String
  usage : ℚ
  frequency : ℚ
  index : JSNum
  deriving DecidableEq

/-- `usage = totalTime > 0 ? (nonIdleTime / totalTime) * 100 : 0` with
`nonIdleTime = user + privileged + interrupt + dpc`, `totalTime = nonIdleTime + idle`;
a `NaN` total fails the `> 0` test and also yields 0. -/
def usageOf (d : CoreTimeData) : ℚ :=
  match jsAdd (jsAdd (jsAdd d.user d.privileged) d.interrupt) d.dpc, d.idle with
  | some n, some i => if 0 < n + i then n / (n + i) * 100 else 0
  | _, _ => 0

/-- `core.split(',').map(Number).reduce((p, c, i) => i === 0 ? p + c * 2 : p + c, 0)`:
the first part is weighted by 2 (two hyper-threads per processor), the rest added. -/
def jsCoreIndexParts (parts : List JSNum) : JSNum :=
  match parts with
  | [] => some 0
  | c :: rest => rest.foldl jsAdd (jsAdd (some 0) (jsMul c (some 2)))

def jsCoreIndex (core : String) : JSNum :=
  jsCoreIndexParts ((jsSplit ',' core).map jsNumber)

/-- `const [processor, thread] = core.split(',').map(Number); thread + processor * 2`
(the variant used in the mperf/performance branches; a missing element is
`undefined`, whose arithmetic is `NaN`). -/
def jsMperfIndex (core : String) : JSNum :=
  let parts := (jsSplit ',' core).map jsNumber
  jsAdd (parts.getD 1 none) (jsMul (parts.getD 0 none) (some 2))

/-- The sort comparator `(a, b) => a.index - b.index`; per the ECMAScript
`SortCompare` a `NaN` comparator result is treated as `0` (elements compare
equal), so a pair with a non-finite index accepts either order. -/
def jsLeIdx (a b : CoreUsage) : Bool :=
  match a.index, b.index with
  | some x, some y => decide (x ≤ y)
  | _, _ => true

/-- Stable insertion modelling the engine's stable comparator sort. -/
def insertByIdx (x : CoreUsage) : List CoreUsage → List CoreUsage
  | [] => [x]
  | y :: ys => if jsLeIdx x y then x :: y :: ys else y :: insertByIdx x ys

def sortByIdx : List CoreUsage → List CoreUsage
  | [] => []
  | x :: xs => insertByIdx x (sortByIdx xs)

/-- `Array.from(coreTimes.entries()).map(...)`: one `CoreUsage` per tracked
core, all carrying the single global `cpuFreq` scalar. -/
def coreUsagesOf (ct : CoreMap) (freq : ℚ) : List CoreUsage :=
  ct.map (fun p => { core := p.1, usage := usageOf p.2, frequency := freq, index := jsCoreIndex p.1 })

/-- `cpuCoreUsages.reduce((sum, core) => sum + core.usage, 0)`. -/
def sumUsage (l : List CoreUsage) : ℚ :=
  l.foldl (fun s u => s + u.usage) 0

/-! ### The mutable component state touched by `fetchMetrics` -/

structure MState where
  currentReceivedBytes : JSNum
  currentSentBytes : JSNum
  receivedData : JSNum
  sentData : JSNum
  lastReceivedBytes : JSNum
  lastSentBytes : JSNum
  receivedSpeed : JSNum
  sentSpeed : JSNum
  lastTimestamp : ℚ
  cpuUsage : JSNum
  cpuCores : ℤ
  cpuFreq : ℚ
  cpuCoreUsages : List CoreUsage
  memoryTotal : JSNum
  memoryUsed : JSNum
  memoryFree : JSNum
  diskTotal : JSNum
  diskUsed : JSNum
  diskFree : JSNum
  fetchError : String
  deriving DecidableEq

/-- The component's initial bindings (`lastTimestamp = Date.now()` at load is
taken as time 0; all timestamps are relative to it). -/
def initState : MState :=
  { currentReceivedBytes := some 0, currentSentBytes := some 0
    receivedData := some 0, sentData := some 0
    lastReceivedBytes := some 0, lastSentBytes := some 0
    receivedSpeed := some 0, sentSpeed := some 0
    lastTimestamp := 0
    cpuUsage := some 0, cpuCores := 0, cpuFreq := 0, cpuCoreUsages := []
    memoryTotal := some 0, memoryUsed := some 0, memoryFree := some 0
    diskTotal := some 0, diskUsed := some 0, diskFree := some 0
    fetchError := "" }


/-! ### The per-line branches of the `lines.forEach` in `fetchMetrics`.
The mperf/performance branches additionally fill the `cpuTotalTimes` /
`cpuIdleTimes` arrays; those arrays feed no exposed value (only `coreTimes`
does) and are not carried in the state, but their shared index computation is
embedded above as `jsMperfIndex`. -/

def cpuTimeStep (acc : MState × CoreMap) (line : String) : MState × CoreMap :=
  if jsIncludes line "windows_cpu_time_total" then
    match findCoreMode line.toList with
    | some (core, mode) => (acc.1, updAssoc acc.2 core (fun d => applyCpuTime d mode (lineVal line)))
    | none => acc
  else acc

def netRecvStep (acc : MState × CoreMap) (line : String) : MState × CoreMap :=
  if jsIncludes line "windows_net_bytes_received_total" then
    let value := lineVal line
    ({ acc.1 with currentReceivedBytes := value
                  receivedData := jsDiv value (some (1024 * 1024 * 1024)) }, acc.2)
  else acc

def netSentStep (acc : MState × CoreMap) (line : String) : MState × CoreMap :=
  if jsIncludes line "windows_net_bytes_sent_total" then
    let value := lineVal line
    ({ acc.1 with currentSentBytes := value
                  sentData := jsDiv value (some (1024 * 1024 * 1024)) }, acc.2)
  else acc

def cpuCoresStep (acc : MState × CoreMap) (line : String) : MState × CoreMap :=
  if jsIncludes line "windows_cpu_logical_processor" then
    match jsParseInt (jsNumField line) with
    | some n => if 0 < n then ({ acc.1 with cpuCores := n }, acc.2) else acc
    | none => acc
  else acc

def cpuFreqStep (acc : MState × CoreMap) (line : String) : MState × CoreMap :=
  if jsIncludes line "windows_cpu_core_frequency_mhz" then
    match lineVal line with
    | some v => ({ acc.1 with cpuFreq := v / 1000 }, acc.2)
    | none => acc
  else acc

def memTotalStep (acc : MState × CoreMap) (line : String) : MState × CoreMap :=
  if jsIncludes line "windows_os_visible_memory_bytes" then
    ({ acc.1 with memoryTotal := jsDiv (lineVal line) (some (1024 * 1024 * 1024)) }, acc.2)
  else acc

def memAvailStep (acc : MState × CoreMap) (line : String) : MState × CoreMap :=
  if jsIncludes line "windows_memory_available_bytes" then
    let free := jsDiv (lineVal line) (some (1024 * 1024 * 1024))
    ({ acc.1 with memoryFree := free
                  memoryUsed := jsMax0 (jsSub acc.1.memoryTotal free) }, acc.2)
  else acc

def diskSizeStep (acc : MState × CoreMap) (line : String) : MState × CoreMap :=
  if jsIncludes line "windows_logical_disk_size_bytes\x7bvolume=\"C:\"\x7d" then
    ({ acc.1 with diskTotal := jsDiv (lineVal line) (some (1024 * 1024 * 1024)) }, acc.2)
  else acc

def diskFreeStep (acc : MState × CoreMap) (line : String) : MState × CoreMap :=
  if jsIncludes line "windows_logical_disk_free_bytes\x7bvolume=\"C:\"\x7d" then
    let free := jsDiv (lineVal line) (some (1024 * 1024 * 1024))
    ({ acc.1 with diskFree := free
                  diskUsed := jsMax0 (jsSub acc.1.diskTotal free) }, acc.2)
  else acc

/-- One line of the `forEach`, branches in source order. -/
def lineStep (acc : MState × CoreMap) (line : String) : MState × CoreMap :=
  diskFreeStep
    (diskSizeStep
      (memAvailStep
        (memTotalStep
          (cpuFreqStep
            (cpuCoresStep
              (netSentStep (netRecvStep (cpuTimeStep acc line) line) line) line) line) line) line) line) line

/-- The network-rate tail of the success path: the current/last byte deltas are
turned into Mb/s only when both last counters are positive, then the last
values and timestamp are shifted.  `timeDiff` is elapsed seconds. -/
def updateSpeeds (st : MState) (now : ℚ) : MState :=
  let timeDiff : ℚ := (now - st.lastTimestamp) / 1000
  let st' :=
    if jsGtZero st.lastReceivedBytes && jsGtZero st.lastSentBytes then
      { st with
        receivedSpeed :=
          jsMul (jsDiv (jsDiv (jsSub st.currentReceivedBytes st.lastReceivedBytes)
            (some timeDiff)) (some (1024 * 1024))) (some 8)
        sentSpeed :=
          jsMul (jsDiv (jsDiv (jsSub st.currentSentBytes st.lastSentBytes)
            (some timeDiff)) (some (1024 * 1024))) (some 8) }
    else st
  { st' with lastReceivedBytes := st'.currentReceivedBytes
             lastSentBytes := st'.currentSentBytes
             lastTimestamp := now }

/-- The line fold of the success path, starting from the cleared error and a
fresh (per-call) `coreTimes` map. -/
def foldAcc (st : MState) (lines : List String) : MState × CoreMap :=
  lines.foldl lineStep ({ st with fetchError := "" }, ([] : CoreMap))

/-- The success path of `fetchMetrics` up to the network-rate tail: clear the
error, fold the per-line branches over a fresh `coreTimes` map, then derive
the sorted per-core usages and their mean. -/
def midState (st : MState) (lines : List String) : MState :=
  let acc := foldAcc st lines
  let usages := sortByIdx (coreUsagesOf acc.2 acc.1.cpuFreq)
  { acc.1 with
      cpuCoreUsages := usages
      cpuUsage := jsDiv (some (sumUsage usages)) (some (usages.length : ℚ)) }

/-- The full success path: the line fold, then the derived per-core block,
then the network-rate tail. -/
def processMetrics (st : MState) (lines : List String) (now : ℚ) : MState :=
  updateSpeeds (midState st lines) now

/-- The `catch` branch of `fetchMetrics`: record the classified error and zero
`receivedSpeed`, `sentSpeed`, `memoryUsed`, `memoryTotal`, `diskUsed`,
`diskTotal`.  Nothing else is touched. -/
def applyFetchFailure (st : MState) (err : String) : MState :=
  { st with fetchError := err
            receivedSpeed := some 0, sentSpeed := some 0
            memoryUsed := some 0, memoryTotal := some 0
            diskUsed := some 0, diskTotal := some 0 }

/-- `fetchError = '数据格式错误'` on a non-text response body. -/
def errFormatMsg : String := "数据格式错误"

/-! ### The polling scheduler (`fetchMetricsWithRetry` / `tryFetchMetrics`) -/

def MAX_RETRIES : ℕ := 3

/-- `RETRY_DELAY` in milliseconds. -/
def RETRY_DELAY : ℕ := 2000

/-- What one fetch resolves to: a text body (with the poll time), a non-text
body, or a classified transport failure. -/
inductive FetchOutcome where
  | success (body : List String) (now : ℚ)
  | badFormat
  | failure (err : String)
  deriving DecidableEq

/-- `fetchMetrics` as a whole: its internal `try`/`catch` handles every
outcome, so the async function always resolves normally. -/
def fetchMetricsRun (st : MState) (oc : FetchOutcome) : MState :=
  match oc with
  | .success body now => processMetrics st body now
  | .badFormat => { st with fetchError := errFormatMsg }
  | .failure err => applyFetchFailure st err

/-- `await fetchMetrics()` seen from a caller: `.error` would be a rejected
promise, but the function's own `catch` means the result is always `.ok`. -/
def fetchMetricsE (st : MState) (oc : FetchOutcome) : Except String MState :=
  .ok (fetchMetricsRun st oc)

/-- `tryFetchMetrics` (retry driver): on resolution reset `retryCount`; on
rejection retry after `RETRY_DELAY` while `retryCount < MAX_RETRIES`,
incrementing it, and otherwise give up with `retryCount` unchanged.  The
result carries the final state, the final `retryCount`, and how many times
`fetchMetrics` was invoked. -/
def tryFetchModel (retryCount : ℕ) (st : MState) (oc : FetchOutcome)
    (rest : List FetchOutcome) : MState × ℕ × ℕ :=
  match fetchMetricsE st oc with
  | .ok st' => (st', 0, 1)
  | .error _ =>
      if retryCount < MAX_RETRIES then
        match rest with
        | [] => (st, retryCount + 1, 1)
        | oc' :: rest' =>
            let r := tryFetchModel (retryCount + 1) st oc' rest'
            (r.1, r.2.1, r.2.2 + 1)
      else (st, retryCount, 1)

/-- `fetchMetricsWithRetry`: reset `retryCount` to 0, then `tryFetchMetrics`. -/
def fetchWithRetryModel (st : MState) (oc : FetchOutcome) (rest : List FetchOutcome) :
    MState × ℕ × ℕ :=
  tryFetchModel 0 st oc rest

/-! ### Derived notions and concrete fixtures used by the verification -/

/-- The numeric value of a finite linear index (`0` only as a dummy for the
non-finite case, which the ordering statements exclude by hypothesis). -/
def idxVal (u : CoreUsage) : ℚ := u.index.getD 0

def cuDefault : CoreUsage := { core := "", usage := 0, frequency := 0, index := some 0 }

/-- Two-line network blob reporting 1000 received / 1000 sent bytes. -/
def netBlob1000 : List String :=
  ["windows_net_bytes_received_total 1000", "windows_net_bytes_sent_total 1000"]

/-- Two-line network blob reporting 500 received / 500 sent bytes — lower than
`netBlob1000`, i.e. a counter reset. -/
def netBlob500 : List String :=
  ["windows_net_bytes_received_total 500", "windows_net_bytes_sent_total 500"]

/-- A gauge-only blob: 8 GiB visible memory, 3 GiB available, 100 GiB C: disk,
40 GiB free. -/
def memBlob : List String :=
  ["windows_os_visible_memory_bytes 8589934592",
   "windows_memory_available_bytes 3221225472",
   "windows_logical_disk_size_bytes\x7bvolume=\"C:\"\x7d 107374182400",
   "windows_logical_disk_free_bytes\x7bvolume=\"C:\"\x7d 42949672960"]

/-- Three per-core time lines arriving out of index order (cores `1,0`, `0,1`,
`0,0`), so the exposed sequence has to be reordered. -/
def cpuBlob3 : List String :=
  ["windows_cpu_time_total\x7bcore=\"1,0\",mode=\"idle\"\x7d 50",
   "windows_cpu_time_total\x7bcore=\"0,1\",mode=\"user\"\x7d 30",
   "windows_cpu_time_total\x7bcore=\"0,0\",mode=\"idle\"\x7d 70"]

/-- Cores interleaved with two frequency lines (3000 MHz then 4000 MHz): every
exposed core must end up carrying the final 4 GHz value. -/
def freqBlob : List String :=
  ["windows_cpu_time_total\x7bcore=\"0,0\",mode=\"idle\"\x7d 50",
   "windows_cpu_core_frequency_mhz 3000",
   "windows_cpu_time_total\x7bcore=\"0,1\",mode=\"user\"\x7d 30",
   "windows_cpu_core_frequency_mhz 4000"]

/-- A single core blob for discharging non-emptiness hypotheses. -/
def oneCoreBlob : List String :=
  ["windows_cpu_time_total\x7bcore=\"0,0\",mode=\"idle\"\x7d 50"]

/-- A recognized network line whose trailing field is not numeric. -/
def badNetLine : String := "windows_net_bytes_received_total abc"

/-- State with both byte counters known: previous 1,000,000,000 and current
1,031,250,000 in each direction (the spec's throughput example). -/
def c5State : MState :=
  { initState with
      currentReceivedBytes := some 1031250000, currentSentBytes := some 1031250000
      lastReceivedBytes := some 1000000000, lastSentBytes := some 1000000000 }

/-- State one cycle after observing 1000/1000 bytes, about to observe a reset. -/
def c1State : MState :=
  { initState with
      currentReceivedBytes := some 500, currentSentBytes := some 500
      lastReceivedBytes := some 1000, lastSentBytes := some 1000 }

/-- A concrete accumulator: 50 idle, 30 user, 10 privileged, 5 interrupt, 5 dpc. -/
def c6Data : CoreTimeData :=
  { idle := some 50, user := some 30, privileged := some 10, interrupt := some 5
    dpc := some 5, total := some 100, lastTotal := some 0, lastIdle := some 0 }

/-! ### Helper lemmas: which fields each per-line branch leaves alone -/

@[simp] theorem cpuTimeStep_fst (acc : MState × CoreMap) (l : String) :
    (cpuTimeStep acc l).1 = acc.1 := by
  unfold cpuTimeStep
  repeat' split
  all_goals rfl

@[simp] theorem netRecvStep_keeps (acc : MState × CoreMap) (l : String) :
    (netRecvStep acc l).1.lastReceivedBytes = acc.1.lastReceivedBytes ∧
    (netRecvStep acc l).1.lastSentBytes = acc.1.lastSentBytes ∧
    (netRecvStep acc l).1.receivedSpeed = acc.1.receivedSpeed ∧
    (netRecvStep acc l).1.sentSpeed = acc.1.sentSpeed := by
  unfold netRecvStep
  repeat' split
  all_goals exact ⟨rfl, rfl, rfl, rfl⟩

@[simp] theorem netSentStep_keeps (acc : MState × CoreMap) (l : String) :
    (netSentStep acc l).1.lastReceivedBytes = acc.1.lastReceivedBytes ∧
    (netSentStep acc l).1.lastSentBytes = acc.1.lastSentBytes ∧
    (netSentStep acc l).1.receivedSpeed = acc.1.receivedSpeed ∧
    (netSentStep acc l).1.sentSpeed = acc.1.sentSpeed := by
  unfold netSentStep
  repeat' split
  all_goals exact ⟨rfl, rfl, rfl, rfl⟩

@[simp] theorem cpuCoresStep_keeps (acc : MState × CoreMap) (l : String) :
    (cpuCoresStep acc l).1.lastReceivedBytes = acc.1.lastReceivedBytes ∧
    (cpuCoresStep acc l).1.lastSentBytes = acc.1.lastSentBytes ∧
    (cpuCoresStep acc l).1.receivedSpeed = acc.1.receivedSpeed ∧
    (cpuCoresStep acc l).1.sentSpeed = acc.1.sentSpeed := by
  unfold cpuCoresStep
  repeat' split
  all_goals exact ⟨rfl, rfl, rfl, rfl⟩

@[simp] theorem cpuFreqStep_keeps (acc : MState × CoreMap) (l : String) :
    (cpuFreqStep acc l).1.lastReceivedBytes = acc.1.lastReceivedBytes ∧
    (cpuFreqStep acc l).1.lastSentBytes = acc.1.lastSentBytes ∧
    (cpuFreqStep acc l).1.receivedSpeed = acc.1.receivedSpeed ∧
    (cpuFreqStep acc l).1.sentSpeed = acc.1.sentSpeed := by
  unfold cpuFreqStep
  repeat' split
  all_goals exact ⟨rfl, rfl, rfl, rfl⟩

@[simp] theorem memTotalStep_keeps (acc : MState × CoreMap) (l : String) :
    (memTotalStep acc l).1.lastReceivedBytes = acc.1.lastReceivedBytes ∧
    (memTotalStep acc l).1.lastSentBytes = acc.1.lastSentBytes ∧
    (memTotalStep acc l).1.receivedSpeed = acc.1.receivedSpeed ∧
    (memTotalStep acc l).1.sentSpeed = acc.1.sentSpeed := by
  unfold memTotalStep
  repeat' split
  all_goals exact ⟨rfl, rfl, rfl, rfl⟩

@[simp] theorem memAvailStep_keeps (acc : MState × CoreMap) (l : String) :
    (memAvailStep acc l).1.lastReceivedBytes = acc.1.lastReceivedBytes ∧
    (memAvailStep acc l).1.lastSentBytes = acc.1.lastSentBytes ∧
    (memAvailStep acc l).1.receivedSpeed = acc.1.receivedSpeed ∧
    (memAvailStep acc l).1.sentSpeed = acc.1.sentSpeed := by
  unfold memAvailStep
  repeat' split
  all_goals exact ⟨rfl, rfl, rfl, rfl⟩

@[simp] theorem diskSizeStep_keeps (acc : MState × CoreMap) (l : String) :
    (diskSizeStep acc l).1.lastReceivedBytes = acc.1.lastReceivedBytes ∧
    (diskSizeStep acc l).1.lastSentBytes = acc.1.lastSentBytes ∧
    (diskSizeStep acc l).1.receivedSpeed = acc.1.receivedSpeed ∧
    (diskSizeStep acc l).1.sentSpeed = acc.1.sentSpeed := by
  unfold diskSizeStep
  repeat' split
  all_goals exact ⟨rfl, rfl, rfl, rfl⟩

@[simp] theorem diskFreeStep_keeps (acc : MState × CoreMap) (l : String) :
    (diskFreeStep acc l).1.lastReceivedBytes = acc.1.lastReceivedBytes ∧
    (diskFreeStep acc l).1.lastSentBytes = acc.1.lastSentBytes ∧
    (diskFreeStep acc l).1.receivedSpeed = acc.1.receivedSpeed ∧
    (diskFreeStep acc l).1.sentSpeed = acc.1.sentSpeed := by
  unfold diskFreeStep
  repeat' split
  all_goals exact ⟨rfl, rfl, rfl, rfl⟩

theorem lineStep_keeps (acc : MState × CoreMap) (l : String) :
    (lineStep acc l).1.lastReceivedBytes = acc.1.lastReceivedBytes ∧
    (lineStep acc l).1.lastSentBytes = acc.1.lastSentBytes ∧
    (lineStep acc l).1.receivedSpeed = acc.1.receivedSpeed ∧
    (lineStep acc l).1.sentSpeed = acc.1.sentSpeed := by
  unfold lineStep
  simp

theorem foldl_lineStep_keeps (lines : List String) :
    ∀ acc : MState × CoreMap,
      (lines.foldl lineStep acc).1.lastReceivedBytes = acc.1.lastReceivedBytes ∧
      (lines.foldl lineStep acc).1.lastSentBytes = acc.1.lastSentBytes ∧
      (lines.foldl lineStep acc).1.receivedSpeed = acc.1.receivedSpeed ∧
      (lines.foldl lineStep acc).1.sentSpeed = acc.1.sentSpeed := by
  induction lines with
  | nil => exact fun acc => ⟨rfl, rfl, rfl, rfl⟩
  | cons l ls ih =>
      intro acc
      rw [List.foldl_cons]
      obtain ⟨a1, a2, a3, a4⟩ := ih (lineStep acc l)
      obtain ⟨b1, b2, b3, b4⟩ := lineStep_keeps acc l
      exact ⟨a1.trans b1, a2.trans b2, a3.trans b3, a4.trans b4⟩

theorem foldAcc_keeps (st : MState) (lines : List String) :
    (foldAcc st lines).1.lastReceivedBytes = st.lastReceivedBytes ∧
    (foldAcc st lines).1.lastSentBytes = st.lastSentBytes ∧
    (foldAcc st lines).1.receivedSpeed = st.receivedSpeed ∧
    (foldAcc st lines).1.sentSpeed = st.sentSpeed := by
  unfold foldAcc
  exact foldl_lineStep_keeps lines _

theorem updateSpeeds_keeps (st : MState) (now : ℚ) :
    (updateSpeeds st now).cpuCoreUsages = st.cpuCoreUsages ∧
    (updateSpeeds st now).cpuUsage = st.cpuUsage ∧
    (updateSpeeds st now).cpuFreq = st.cpuFreq ∧
    (updateSpeeds st now).fetchError = st.fetchError := by
  simp only [updateSpeeds]
  repeat' split
  all_goals exact ⟨rfl, rfl, rfl, rfl⟩

theorem updateSpeeds_stall (st : MState) (now : ℚ)
    (h : jsGtZero st.lastReceivedBytes = false) :
    (updateSpeeds st now).receivedSpeed = st.receivedSpeed ∧
    (updateSpeeds st now).sentSpeed = st.sentSpeed := by
  simp only [updateSpeeds, h]
  exact ⟨rfl, rfl⟩

theorem midState_keeps (st : MState) (lines : List String) :
    (midState st lines).lastReceivedBytes = st.lastReceivedBytes ∧
    (midState st lines).lastSentBytes = st.lastSentBytes ∧
    (midState st lines).receivedSpeed = st.receivedSpeed ∧
    (midState st lines).sentSpeed = st.sentSpeed := by
  obtain ⟨h1, h2, h3, h4⟩ := foldAcc_keeps st lines
  exact ⟨h1, h2, h3, h4⟩

theorem processMetrics_cpuCoreUsages (st : MState) (lines : List String) (now : ℚ) :
    (processMetrics st lines now).cpuCoreUsages
      = sortByIdx (coreUsagesOf (foldAcc st lines).2 (foldAcc st lines).1.cpuFreq) := by
  unfold processMetrics
  rw [(updateSpeeds_keeps _ _).1]
  rfl

theorem processMetrics_cpuUsage (st : MState) (lines : List String) (now : ℚ) :
    (processMetrics st lines now).cpuUsage
      = jsDiv (some (sumUsage (processMetrics st lines now).cpuCoreUsages))
          (some ((processMetrics st lines now).cpuCoreUsages.length : ℚ)) := by
  rw [processMetrics_cpuCoreUsages]
  unfold processMetrics
  rw [(updateSpeeds_keeps _ _).2.1]
  rfl

theorem processMetrics_cpuFreq (st : MState) (lines : List String) (now : ℚ) :
    (processMetrics st lines now).cpuFreq = (foldAcc st lines).1.cpuFreq := by
  unfold processMetrics
  rw [(updateSpeeds_keeps _ _).2.2.1]
  rfl

/-! ### Helper lemmas: the comparator sort -/

theorem mem_insertByIdx {x z : CoreUsage} {l : List CoreUsage} :
    z ∈ insertByIdx x l ↔ z = x ∨ z ∈ l := by
  induction l with
  | nil => simp [insertByIdx]
  | cons y ys ih =>
      unfold insertByIdx
      split
      · simp [List.mem_cons]
      · simp [List.mem_cons, ih]
        tauto

theorem mem_sortByIdx {z : CoreUsage} {l : List CoreUsage} :
    z ∈ sortByIdx l ↔ z ∈ l := by
  induction l with
  | nil => simp [sortByIdx]
  | cons x xs ih => simp [sortByIdx, mem_insertByIdx, ih]

theorem jsLeIdx_eq_le {a b : CoreUsage} (ha : a.index.isSome = true)
    (hb : b.index.isSome = true) :
    jsLeIdx a b = true ↔ idxVal a ≤ idxVal b := by
  obtain ⟨x, hx⟩ := Option.isSome_iff_exists.mp ha
  obtain ⟨y, hy⟩ := Option.isSome_iff_exists.mp hb
  simp [jsLeIdx, idxVal, hx, hy]

theorem sorted_insertByIdx {x : CoreUsage} {l : List CoreUsage}
    (hx : x.index.isSome = true) (hl : ∀ y ∈ l, y.index.isSome = true)
    (h : List.Sorted (fun a b => idxVal a ≤ idxVal b) l) :
    List.Sorted (fun a b => idxVal a ≤ idxVal b) (insertByIdx x l) := by
  induction l with
  | nil => simp [insertByIdx]
  | cons y ys ih =>
      have hy : y.index.isSome = true := hl y (List.mem_cons_self y ys)
      have hys : ∀ z ∈ ys, z.index.isSome = true :=
        fun z hz => hl z (List.mem_cons_of_mem y hz)
      rw [List.sorted_cons] at h
      unfold insertByIdx
      split
      · rename_i hc
        have hxy : idxVal x ≤ idxVal y := (jsLeIdx_eq_le hx hy).mp hc
        rw [List.sorted_cons]
        refine ⟨?_, List.sorted_cons.mpr h⟩
        intro b hb
        rcases List.mem_cons.mp hb with rfl | hb'
        · exact hxy
        · exact hxy.trans (h.1 b hb')
      · rename_i hc
        have hyx : idxVal y ≤ idxVal x :=
          le_of_not_le fun hle => hc ((jsLeIdx_eq_le hx hy).mpr hle)
        rw [List.sorted_cons]
        refine ⟨?_, ih hys h.2⟩
        intro b hb
        rcases mem_insertByIdx.mp hb with rfl | hb'
        · exact hyx
        · exact h.1 b hb'

theorem sorted_sortByIdx (l : List CoreUsage) (hl : ∀ y ∈ l, y.index.isSome = true) :
    List.Sorted (fun a b => idxVal a ≤ idxVal b) (sortByIdx l) := by
  induction l with
  | nil => simp [sortByIdx]
  | cons x xs ih =>
      have hx : x.index.isSome = true := hl x (List.mem_cons_self x xs)
      have hxs : ∀ z ∈ xs, z.index.isSome = true :=
        fun z hz => hl z (List.mem_cons_of_mem x hz)
      have hsorted : ∀ z ∈ sortByIdx xs, z.index.isSome = true :=
        fun z hz => hxs z (mem_sortByIdx.mp hz)
      exact sorted_insertByIdx hx hsorted (ih hxs)

theorem coreUsagesOf_freq {ct : CoreMap} {f : ℚ} {u : CoreUsage}
    (hu : u ∈ coreUsagesOf ct f) : u.frequency = f := by
  unfold coreUsagesOf at hu
  obtain ⟨p, hp, rfl⟩ := List.mem_map.mp hu
  rfl

/-! ### Helper: the network-rate formula on the guarded branch -/

theorem updateSpeeds_formula (st : MState) (now c p : ℚ)
    (hc : st.currentReceivedBytes = some c) (hp : st.lastReceivedBytes = some p)
    (hpp : 0 < p) (hs : jsGtZero st.lastSentBytes = true) (ht : st.lastTimestamp < now) :
    (updateSpeeds st now).receivedSpeed
      = some ((c - p) / ((now - st.lastTimestamp) / 1000) / (1024 * 1024) * 8) := by
  have hg : jsGtZero st.lastReceivedBytes = true := by
    rw [hp]; simp [jsGtZero, hpp]
  have htd : (now - st.lastTimestamp) / 1000 ≠ 0 :=
    div_ne_zero (sub_ne_zero.mpr (ne_of_gt ht)) (by norm_num)
  have h1024 : ((1024 * 1024 : ℚ)) ≠ 0 := by norm_num
  simp only [updateSpeeds, hg, hs, Bool.and_self, if_true]
  rw [hc, hp]
  simp [jsSub, jsDiv, jsMul, htd, h1024]

/-- Claim C5 (confirmed): whenever both byte counters are known (positive
previous values) and the elapsed time is positive, the received speed equals
`((current - previous) / elapsedSeconds) / (1024*1024) * 8`; in particular,
1,000,000,000 → 1,031,250,000 bytes over 2.5 s gives a speed within 0.01 of
95.37 Mb/s. -/
theorem c5_throughput :
    (∀ (st : MState) (now c p : ℚ),
        st.currentReceivedBytes = some c → st.lastReceivedBytes = some p →
        0 < p → jsGtZero st.lastSentBytes = true → st.lastTimestamp < now →
        (updateSpeeds st now).receivedSpeed
          = some ((c - p) / ((now - st.lastTimestamp) / 1000) / (1024 * 1024) * 8))
    ∧ (∀ (st : MState) (now : ℚ),
        st.currentReceivedBytes = some 1031250000 →
        st.lastReceivedBytes = some 1000000000 →
        jsGtZero st.lastSentBytes = true → now - st.lastTimestamp = 2500 →
        ∃ q : ℚ, (updateSpeeds st now).receivedSpeed = some q ∧ |q - 9537/100| < 1/100) := by
  constructor
  · exact fun st now c p hc hp hpp hs ht => updateSpeeds_formula st now c p hc hp hpp hs ht
  · intro st now hc hp hs hdiff
    have ht : st.lastTimestamp < now := by
      have h0 : (0 : ℚ) < now - st.lastTimestamp := by rw [hdiff]; norm_num
      linarith
    refine ⟨_, updateSpeeds_formula st now _ _ hc hp (by norm_num) hs ht, ?_⟩
    rw [hdiff, abs_sub_lt_iff]
    constructor <;> norm_num

/-- Witness for C5 at the spec's concrete numbers. -/
theorem c5_throughput_witness :
    (updateSpeeds c5State 2500).receivedSpeed
      = some (((1031250000 : ℚ) - 1000000000) / ((2500 - 0) / 1000) / (1024 * 1024) * 8) :=
  c5_throughput.1 c5State 2500 1031250000 1000000000 rfl rfl (by norm_num)
    (by with_unfolding_all rfl) (show (0 : ℚ) < 2500 by norm_num)

/-- Claim C1 (corrected): the code has no counter-reset clamp.  With both last
counters positive and positive elapsed time, the received speed is always the
raw delta formula, and a lower current value yields a negative speed, not 0. -/
theorem c1_no_reset_clamp :
    ∀ (st : MState) (now c p : ℚ),
      st.currentReceivedBytes = some c → st.lastReceivedBytes = some p →
      0 < p → jsGtZero st.lastSentBytes = true → st.lastTimestamp < now → c < p →
      (updateSpeeds st now).receivedSpeed
          = some ((c - p) / ((now - st.lastTimestamp) / 1000) / (1024 * 1024) * 8)
        ∧ (c - p) / ((now - st.lastTimestamp) / 1000) / (1024 * 1024) * 8 < 0 := by
  intro st now c p hc hp hpp hs ht hcp
  refine ⟨updateSpeeds_formula st now c p hc hp hpp hs ht, ?_⟩
  have h1 : c - p < 0 := sub_neg.mpr hcp
  have h2 : (0 : ℚ) < (now - st.lastTimestamp) / 1000 :=
    div_pos (sub_pos.mpr ht) (by norm_num)
  have h3 : (c - p) / ((now - st.lastTimestamp) / 1000) < 0 := div_neg_of_neg_of_pos h1 h2
  have h4 : (c - p) / ((now - st.lastTimestamp) / 1000) / (1024 * 1024) < 0 :=
    div_neg_of_neg_of_pos h3 (by norm_num)
  exact mul_neg_of_neg_of_pos h4 (by norm_num)

/-- Witness for C1's amended statement: a reset from 1000 to 500 bytes over
one second gives a negative speed. -/
theorem c1_no_reset_clamp_witness :
    (updateSpeeds c1State 1000).receivedSpeed
        = some (((500 : ℚ) - 1000) / ((1000 - 0) / 1000) / (1024 * 1024) * 8)
      ∧ ((500 : ℚ) - 1000) / ((1000 - 0) / 1000) / (1024 * 1024) * 8 < 0 :=
  c1_no_reset_clamp c1State 1000 500 1000 rfl rfl (by norm_num)
    (by with_unfolding_all rfl) (show (0 : ℚ) < 1000 by norm_num) (by norm_num)

/-- Counterexample to C1 as stated: a full two-cycle run whose second blob
reports lower byte counters produces a negative exposed speed, not 0. -/
theorem c1_counterexample :
    (processMetrics (processMetrics initState netBlob1000 1000) netBlob500 2000).receivedSpeed
        = some (-(125 / 32768))
      ∧ (-(125 / 32768) : ℚ) < 0 :=
  ⟨by with_unfolding_all rfl, by norm_num⟩

/-- Claim C2 (code bug): `fetchMetrics` traps every failure in its own
`catch`, so the promise seen by `tryFetchMetrics` always resolves: every poll
tick performs exactly one fetch attempt, `retryCount` ends at 0, and on a
transport failure the failure state is applied immediately — the
`MAX_RETRIES`/`RETRY_DELAY` retry machinery is unreachable. -/
theorem c2_retry_dead :
    ∀ (rc : ℕ) (st : MState) (oc : FetchOutcome) (rest : List FetchOutcome),
      tryFetchModel rc st oc rest = (fetchMetricsRun st oc, 0, 1)
      ∧ ∀ e : String,
          tryFetchModel rc st (.failure e) rest = (applyFetchFailure st e, 0, 1) := by
  intro rc st oc rest
  cases rest with
  | nil => exact ⟨rfl, fun _ => rfl⟩
  | cons oc' rest' => exact ⟨rfl, fun _ => rfl⟩

/-- Claim C3 (corrected): the catch branch zeroes the speeds, `memoryUsed`,
`memoryTotal`, `diskUsed` and `diskTotal` and records the error, while the CPU
fields and also `memoryFree` and `diskFree` keep their previous values; the
non-text-body path records an error and resets nothing. -/
theorem c3_reset_policy :
    ∀ (st : MState) (e : String),
      (applyFetchFailure st e).receivedSpeed = some 0 ∧
      (applyFetchFailure st e).sentSpeed = some 0 ∧
      (applyFetchFailure st e).memoryUsed = some 0 ∧
      (applyFetchFailure st e).memoryTotal = some 0 ∧
      (applyFetchFailure st e).diskUsed = some 0 ∧
      (applyFetchFailure st e).diskTotal = some 0 ∧
      (applyFetchFailure st e).fetchError = e ∧
      (applyFetchFailure st e).memoryFree = st.memoryFree ∧
      (applyFetchFailure st e).diskFree = st.diskFree ∧
      (applyFetchFailure st e).cpuUsage = st.cpuUsage ∧
      (applyFetchFailure st e).cpuCores = st.cpuCores ∧
      (applyFetchFailure st e).cpuFreq = st.cpuFreq ∧
      (applyFetchFailure st e).cpuCoreUsages = st.cpuCoreUsages ∧
      fetchMetricsRun st .badFormat = { st with fetchError := errFormatMsg } :=
  fun _ _ => ⟨rfl, rfl, rfl, rfl, rfl, rfl, rfl, rfl, rfl, rfl, rfl, rfl, rfl, rfl⟩

/-- Counterexample to C3 as stated: after a successful gauge cycle, a fetch
failure leaves `memoryFree` at 3 GB and `diskFree` at 40 GB instead of
resetting every memory and disk field to 0. -/
theorem c3_counterexample :
    (applyFetchFailure (processMetrics initState memBlob 1000) "网络错误: 请检查设备是否在线").memoryFree
        = some 3
      ∧ (applyFetchFailure (processMetrics initState memBlob 1000) "网络错误: 请检查设备是否在线").diskFree
        = some 40
      ∧ (applyFetchFailure (processMetrics initState memBlob 1000) "网络错误: 请检查设备是否在线").fetchError
        = "网络错误: 请检查设备是否在线"
      ∧ some (3 : ℚ) ≠ some (0 : ℚ) ∧ some (40 : ℚ) ≠ some (0 : ℚ) :=
  ⟨by with_unfolding_all rfl, by with_unfolding_all rfl, rfl, by norm_num, by norm_num⟩

/-- Claim C6 (confirmed): with non-negative finite time components the usage
percentage `totalNonIdle / (totalNonIdle + idle) * 100` lies in `[0, 100]`,
and it is 0 when the denominator is 0. -/
theorem c6_usage_bound :
    ∀ (d : CoreTimeData) (i u p ir dp : ℚ),
      d.idle = some i → d.user = some u → d.privileged = some p →
      d.interrupt = some ir → d.dpc = some dp →
      0 ≤ i → 0 ≤ u → 0 ≤ p → 0 ≤ ir → 0 ≤ dp →
      0 ≤ usageOf d ∧ usageOf d ≤ 100 ∧ ((u + p + ir + dp) + i = 0 → usageOf d = 0) := by
  intro d i u p ir dp hi hu hp hir hdp hi0 hu0 hp0 hir0 hdp0
  have hn0 : 0 ≤ u + p + ir + dp := by positivity
  rw [usageOf, hu, hp, hir, hdp, hi]
  simp only [jsAdd]
  by_cases h : 0 < u + p + ir + dp + i
  · rw [if_pos h]
    refine ⟨by positivity, ?_, ?_⟩
    · have hle : (u + p + ir + dp) / (u + p + ir + dp + i) ≤ 1 := by
        rw [div_le_one h]
        linarith
      calc (u + p + ir + dp) / (u + p + ir + dp + i) * 100
          ≤ 1 * 100 := by
            apply mul_le_mul_of_nonneg_right hle
            norm_num
        _ = 100 := by norm_num
    · intro hz
      exfalso
      rw [show u + p + ir + dp + i = (u + p + ir + dp) + i by ring] at h
      rw [hz] at h
      exact lt_irrefl 0 h
  · rw [if_neg h]
    exact ⟨le_refl 0, by norm_num, fun _ => rfl⟩

/-- Witness for C6 at a concrete accumulator. -/
theorem c6_usage_bound_witness :
    0 ≤ usageOf c6Data ∧ usageOf c6Data ≤ 100
      ∧ (((30 : ℚ) + 10 + 5 + 5) + 50 = 0 → usageOf c6Data = 0) :=
  c6_usage_bound c6Data 50 30 10 5 5 rfl rfl rfl rfl rfl
    (by norm_num) (by norm_num) (by norm_num) (by norm_num) (by norm_num)

/-- Claim C4 (confirmed): from the initial (empty) state any single blob
leaves both counter-derived speeds at 0 (the guard on positive previous byte
counters fails), while the gauge-derived memory and disk values are computed
from that blob at once. -/
theorem c4_first_sample :
    (∀ (lines : List String) (now : ℚ),
        (processMetrics initState lines now).receivedSpeed = some 0 ∧
        (processMetrics initState lines now).sentSpeed = some 0)
    ∧ ((processMetrics initState memBlob 1000).memoryTotal = some 8 ∧
       (processMetrics initState memBlob 1000).memoryFree = some 3 ∧
       (processMetrics initState memBlob 1000).memoryUsed = some 5 ∧
       (processMetrics initState memBlob 1000).diskTotal = some 100 ∧
       (processMetrics initState memBlob 1000).diskFree = some 40 ∧
       (processMetrics initState memBlob 1000).diskUsed = some 60) := by
  constructor
  · intro lines now
    obtain ⟨h1, _, h3, h4⟩ := midState_keeps initState lines
    have hg : jsGtZero (midState initState lines).lastReceivedBytes = false := by
      rw [h1]; with_unfolding_all rfl
    obtain ⟨s1, s2⟩ := updateSpeeds_stall (midState initState lines) now hg
    unfold processMetrics
    exact ⟨s1.trans (h3.trans rfl), s2.trans (h4.trans rfl)⟩
  · exact ⟨by with_unfolding_all rfl, by with_unfolding_all rfl, by with_unfolding_all rfl,
      by with_unfolding_all rfl, by with_unfolding_all rfl, by with_unfolding_all rfl⟩

/-- Counterexample to C7 as stated: a blob with no CPU time lines gives an
empty core list, and the aggregate division `0 / 0` is not guarded — the
exposed aggregate is non-finite (`NaN`), not 0. -/
theorem c7_counterexample :
    (processMetrics initState ["windows_os_visible_memory_bytes 8589934592"] 1000).cpuCoreUsages
        = []
      ∧ (processMetrics initState ["windows_os_visible_memory_bytes 8589934592"] 1000).cpuUsage
        = none
      ∧ (none : JSNum) ≠ some (0 : ℚ) :=
  ⟨by with_unfolding_all rfl, by with_unfolding_all rfl, by simp⟩

/-- Claim C7 (corrected): the aggregate is the plain mean
`sum of usages / number of cores` whenever at least one core is present, and
with no cores the unguarded `0 / 0` makes it non-finite (`NaN`), not 0. -/
theorem c7_mean_guard :
    ∀ (st : MState) (lines : List String) (now : ℚ),
      ((processMetrics st lines now).cpuCoreUsages ≠ [] →
        (processMetrics st lines now).cpuUsage
          = some (sumUsage (processMetrics st lines now).cpuCoreUsages
              / ((processMetrics st lines now).cpuCoreUsages.length : ℚ)))
      ∧ ((processMetrics st lines now).cpuCoreUsages = [] →
        (processMetrics st lines now).cpuUsage = none) := by
  intro st lines now
  constructor
  · intro hne
    rw [processMetrics_cpuUsage]
    have hlen : ((processMetrics st lines now).cpuCoreUsages.length : ℚ) ≠ 0 := by
      simp only [ne_eq, Nat.cast_eq_zero, List.length_eq_zero]
      exact hne
    simp [jsDiv, hlen]
  · intro he
    rw [processMetrics_cpuUsage, he]
    simp [jsDiv, sumUsage]

/-- Witness for C7's amended statement on a one-core blob. -/
theorem c7_mean_guard_witness :
    (processMetrics initState oneCoreBlob 1000).cpuUsage
      = some (sumUsage (processMetrics initState oneCoreBlob 1000).cpuCoreUsages
          / ((processMetrics initState oneCoreBlob 1000).cpuCoreUsages.length : ℚ)) :=
  (c7_mean_guard initState oneCoreBlob 1000).1 (by with_unfolding_all decide)

/-- Claim C8 (confirmed): a two-part label `processor,thread` maps to the
linear index `thread + processor * 2` under both index computations, the
labels `0,0`, `0,1`, `1,0` map to 0, 1, 2, and the exposed per-core sequence
is always sorted ascending by index (whenever the indices are finite, which
the comparator sort needs to be deterministic). -/
theorem c8_core_index :
    (∀ (core : String) (p t : ℚ),
        (jsSplit ',' core).map jsNumber = [some p, some t] →
        jsCoreIndex core = some (t + p * 2) ∧ jsMperfIndex core = some (t + p * 2))
    ∧ (jsCoreIndex "0,0" = some 0 ∧ jsCoreIndex "0,1" = some 1 ∧ jsCoreIndex "1,0" = some 2)
    ∧ (∀ (st : MState) (lines : List String) (now : ℚ),
        (∀ u ∈ (processMetrics st lines now).cpuCoreUsages, u.index.isSome = true) →
        List.Sorted (fun a b => idxVal a ≤ idxVal b)
          (processMetrics st lines now).cpuCoreUsages) := by
  refine ⟨?_, ⟨?_, ?_, ?_⟩, ?_⟩
  · intro core p t h
    constructor
    · rw [jsCoreIndex, h]
      simp [jsCoreIndexParts, jsAdd, jsMul]
      ring
    · simp only [jsMperfIndex]
      rw [h]
      simp [jsAdd, jsMul]
  · with_unfolding_all rfl
  · with_unfolding_all rfl
  · with_unfolding_all rfl
  · intro st lines now h
    rw [processMetrics_cpuCoreUsages] at h ⊢
    apply sorted_sortByIdx
    intro y hy
    exact h y (mem_sortByIdx.mpr hy)

/-- Witness for C8: a generic label and a three-core blob arriving out of
order, whose exposed sequence is sorted. -/
theorem c8_core_index_witness :
    (jsCoreIndex "2,1" = some (1 + 2 * 2) ∧ jsMperfIndex "2,1" = some (1 + 2 * 2))
    ∧ List.Sorted (fun a b => idxVal a ≤ idxVal b)
        (processMetrics initState cpuBlob3 1000).cpuCoreUsages :=
  ⟨c8_core_index.1 "2,1" 2 1 (by with_unfolding_all rfl),
   c8_core_index.2.2 initState cpuBlob3 1000 (by with_unfolding_all decide)⟩

/-- Counterexample to C9 as stated: a recognized line whose trailing field is
the non-numeric token `abc` stores `NaN` (non-finite), not 0. -/
theorem c9_counterexample :
    (processMetrics initState [badNetLine] 1000).currentReceivedBytes = none
      ∧ (none : JSNum) ≠ some (0 : ℚ) :=
  ⟨by with_unfolding_all rfl, by simp⟩

/-- Claim C9 (corrected): the `|| '0'` fallback yields 0 only when the
trailing field is missing (empty token); a non-empty unparseable token
produces `NaN`, which is stored for the unguarded families while the pass
continues with later lines; the `isNaN`-guarded frequency site and the
`> 0`-guarded logical-processor-count site keep their previous values. -/
theorem c9_parse_fallback :
    (∀ line : String, jsLastToken line = "" → lineVal line = some 0)
    ∧ (∀ line : String, jsLastToken line ≠ "" →
        jsParseFloat (jsLastToken line) = none → lineVal line = none)
    ∧ ((processMetrics initState [badNetLine, "windows_os_visible_memory_bytes 8589934592"] 1000).currentReceivedBytes
          = none
        ∧ (processMetrics initState [badNetLine, "windows_os_visible_memory_bytes 8589934592"] 1000).memoryTotal
          = some 8)
    ∧ (∀ (acc : MState × CoreMap) (line : String), lineVal line = none →
        (cpuFreqStep acc line).1.cpuFreq = acc.1.cpuFreq)
    ∧ (∀ (acc : MState × CoreMap) (line : String),
        jsParseInt (jsNumField line) = none →
        (cpuCoresStep acc line).1.cpuCores = acc.1.cpuCores)
    ∧ (∀ (acc : MState × CoreMap) (line : String) (n : ℤ),
        jsParseInt (jsNumField line) = some n → ¬ 0 < n →
        (cpuCoresStep acc line).1.cpuCores = acc.1.cpuCores) := by
  refine ⟨?_, ?_, ⟨?_, ?_⟩, ?_, ?_, ?_⟩
  · intro line h
    simp only [lineVal, jsNumField, h, if_pos]
    with_unfolding_all rfl
  · intro line h1 h2
    simp [lineVal, jsNumField, h1, h2]
  · with_unfolding_all rfl
  · with_unfolding_all rfl
  · intro acc line h
    simp only [cpuFreqStep]
    split
    · rw [h]
    · rfl
  · intro acc line h
    simp only [cpuCoresStep]
    split
    · rw [h]
    · rfl
  · intro acc line n h hn
    simp only [cpuCoresStep]
    split
    · rw [h]
      simp [hn]
    · rfl

/-- Witness for C9's amended statement: an empty trailing field falls back to
0, the token `abc` parses to `NaN`, and a core-count line with an unparseable
field leaves `cpuCores` unchanged. -/
theorem c9_parse_fallback_witness :
    lineVal "windows_net_bytes_received_total " = some 0
      ∧ lineVal badNetLine = none
      ∧ (cpuCoresStep (initState, ([] : CoreMap)) "windows_cpu_logical_processor abc").1.cpuCores
        = initState.cpuCores :=
  ⟨c9_parse_fallback.1 "windows_net_bytes_received_total " (by with_unfolding_all rfl),
   c9_parse_fallback.2.1 badNetLine (by with_unfolding_all decide) (by with_unfolding_all rfl),
   c9_parse_fallback.2.2.2.2.1 (initState, ([] : CoreMap)) "windows_cpu_logical_processor abc"
     (by with_unfolding_all rfl)⟩

/-- Claim C10 (confirmed): every exposed per-core entry of one parse cycle
carries the same frequency — the snapshot's single `cpuFreq` scalar, i.e. the
value left by the last successfully parsed frequency line of that blob. -/
theorem c10_uniform_frequency :
    (∀ (st : MState) (lines : List String) (now : ℚ),
        ∀ u ∈ (processMetrics st lines now).cpuCoreUsages,
          u.frequency = (processMetrics st lines now).cpuFreq)
    ∧ (processMetrics initState freqBlob 1000).cpuFreq = 4 := by
  constructor
  · intro st lines now u hu
    rw [processMetrics_cpuCoreUsages] at hu
    rw [processMetrics_cpuFreq]
    exact coreUsagesOf_freq (mem_sortByIdx.mp hu)
  · with_unfolding_all rfl

/-- Witness for C10: the first exposed core of the two-core blob with two
frequency lines carries exactly the snapshot's global frequency. -/
theorem c10_uniform_frequency_witness :
    ((processMetrics initState freqBlob 1000).cpuCoreUsages.getD 0 cuDefault).frequency
      = (processMetrics initState freqBlob 1000).cpuFreq :=
  c10_uniform_frequency.1 initState freqBlob 1000 _ (by with_unfolding_all decide)
